import Mathlib

/-!
Verification development for src/lightctl.c, a small LED strip control
utility.  The C code is shallowly embedded: packed 32-bit colors are
naturals below 2^32, channel extraction mirrors the shift/mask
expressions, and C `float` arithmetic is modelled by exact rational
arithmetic (ℚ).  All float values occurring in the program are derived
from small integers, and most properties treated here are either branch
decisions (invariant under the monotone binary32 rounding of these small
quotients) or stated with an explicit truncation tolerance, so the
rational idealization is faithful for those purposes.  Two aspects of
float semantics are modelled explicitly where they matter: the IEEE
special values produced by division by zero (NaN, ±Inf), which drive the
progress clamp in the main loop (`FloatQ` below), and binary32
round-to-nearest-even rounding (`fl32` below), which decides whether a
frame blended between two equal colors is bit-identical to them.
-/

namespace Lightctl

/-- Channel extraction `(color >> 24) & 0xff` (white channel), lightctl.c:52. -/
def wch (color : Nat) : Nat := color / 2 ^ 24 % 256

/-- Channel extraction `(color >> 16) & 0xff` (red channel), lightctl.c:53. -/
def rch (color : Nat) : Nat := color / 2 ^ 16 % 256

/-- Channel extraction `(color >> 8) & 0xff` (green channel), lightctl.c:54. -/
def gch (color : Nat) : Nat := color / 2 ^ 8 % 256

/-- Channel extraction `(color >> 0) & 0xff` (blue channel), lightctl.c:55. -/
def bch (color : Nat) : Nat := color % 256

/-- Reassembly `(w << 24) + (r << 16) + (g << 8) + b`, lightctl.c:67 and 79. -/
def pack (w r g b : Nat) : Nat := w * 2 ^ 24 + r * 2 ^ 16 + g * 2 ^ 8 + b

/-- The C cast `(uint32_t)(f)` applied to a nonnegative float value:
truncation toward zero, i.e. the floor, clipped at zero. -/
def truncF (q : ℚ) : Nat := (⌊q⌋).toNat

/-- `get_brightness` (lightctl.c:47-57): the weighted channel sum is computed
in `uint32_t` arithmetic (no overflow: at most 255 * 12 = 3060), then cast to
float and divided by the weight sum 12. -/
def get_brightness (color : Nat) : ℚ :=
  ((wch color * 5 + rch color * 2 + gch color * 3 + bch color * 2 : Nat) : ℚ) / 12

/-- `limit_brightness` (lightctl.c:59-72). -/
def limit_brightness (color reference_color : Nat) : Nat :=
  let brightness := get_brightness color
  let ref_brightness := get_brightness reference_color
  if ref_brightness < brightness then
    pack (truncF ((wch color : ℚ) * ref_brightness / brightness))
         (truncF ((rch color : ℚ) * ref_brightness / brightness))
         (truncF ((gch color : ℚ) * ref_brightness / brightness))
         (truncF ((bch color : ℚ) * ref_brightness / brightness))
  else
    color

/-- `blend_colors` (lightctl.c:74-81). -/
def blend_colors (color1 color2 : Nat) (alpha : ℚ) : Nat :=
  pack (truncF ((1 - alpha) * (wch color1 : ℚ) + alpha * (wch color2 : ℚ)))
       (truncF ((1 - alpha) * (rch color1 : ℚ) + alpha * (rch color2 : ℚ)))
       (truncF ((1 - alpha) * (gch color1 : ℚ) + alpha * (gch color2 : ℚ)))
       (truncF ((1 - alpha) * (bch color1 : ℚ) + alpha * (bch color2 : ℚ)))

/-- Powers of two with integer exponent, the scale factors of binary32
values. -/
def pow2 (e : ℤ) : ℚ := (2 : ℚ) ^ e

/-- Round to nearest, ties to even: the IEEE-754 default rounding of a
(nonnegative) real significand to an integer. -/
def rne (x : ℚ) : ℤ :=
  if x - ⌊x⌋ < 1 / 2 then ⌊x⌋
  else if 1 / 2 < x - ⌊x⌋ then ⌊x⌋ + 1
  else if ⌊x⌋ % 2 = 0 then ⌊x⌋ else ⌊x⌋ + 1

/-- Binary exponent search: starting from exponent `e`, walk down or up to
the `e` with `pow2 e ≤ q < pow2 (e+1)`, with a fuel bound. -/
def findExpAux (q : ℚ) : Nat → ℤ → ℤ
  | 0, e => e
  | fuel + 1, e =>
    if q < pow2 e then findExpAux q fuel (e - 1)
    else if pow2 (e + 1) ≤ q then findExpAux q fuel (e + 1)
    else e

/-- Binary exponent of a positive rational (⌊log2 q⌋) for exponents within
±300 of 0, covering the full binary32 range. -/
def findExp (q : ℚ) : ℤ := findExpAux q 300 0

/-- One binary32 (C `float`) rounding step: round-to-nearest-even at 24
significand bits.  Exponent overflow and subnormal loss of precision are
not modelled (all values this development evaluates `fl32` at are normal
and far from the range limits). -/
def fl32 (q : ℚ) : ℚ :=
  if q = 0 then 0
  else if 0 < q then (rne (q / pow2 (findExp q - 23)) : ℚ) * pow2 (findExp q - 23)
  else -((rne (-q / pow2 (findExp (-q) - 23)) : ℚ) * pow2 (findExp (-q) - 23))

/-- `blend_colors` (lightctl.c:74-81) under binary32 semantics: the same
channel expression `(1 - alpha) * (float)ch1 + alpha * (float)ch2` with
every float operation rounded by `fl32` (the channel casts are exact, the
subtraction, the two products and the sum each round once).  This refines
`blend_colors`, which idealizes the same expression in exact rational
arithmetic. -/
def blend_colors32 (color1 color2 : Nat) (alpha : ℚ) : Nat :=
  pack (truncF (fl32 (fl32 (fl32 (1 - alpha) * (wch color1 : ℚ)) + fl32 (alpha * (wch color2 : ℚ)))))
       (truncF (fl32 (fl32 (fl32 (1 - alpha) * (rch color1 : ℚ)) + fl32 (alpha * (rch color2 : ℚ)))))
       (truncF (fl32 (fl32 (fl32 (1 - alpha) * (gch color1 : ℚ)) + fl32 (alpha * (gch color2 : ℚ)))))
       (truncF (fl32 (fl32 (fl32 (1 - alpha) * (bch color1 : ℚ)) + fl32 (alpha * (bch color2 : ℚ)))))

/-- `load_leds` (lightctl.c:98-114).  The file system is modelled by an
optional list of stored 32-bit words: `none` when `fopen` fails (absent
location), `some data` for a readable location holding `data`.  `fread`
returns `min count data.length` entries; the loop at lightctl.c:112-113
zero-fills the remainder. -/
def load_leds (file : Option (List Nat)) (led_count : Nat) : List Nat :=
  match file with
  | none => List.replicate led_count 0
  | some data => data.take led_count ++ List.replicate (led_count - data.length) 0

/-! ### Basic facts about channels and packing -/

lemma wch_lt (c : Nat) : wch c < 256 := Nat.mod_lt _ (by norm_num)

lemma rch_lt (c : Nat) : rch c < 256 := Nat.mod_lt _ (by norm_num)

lemma gch_lt (c : Nat) : gch c < 256 := Nat.mod_lt _ (by norm_num)

lemma bch_lt (c : Nat) : bch c < 256 := Nat.mod_lt _ (by norm_num)

lemma wch_pack (w r g b : Nat) (hw : w < 256) (hr : r < 256) (hg : g < 256)
    (hb : b < 256) : wch (pack w r g b) = w := by
  unfold wch pack
  have h24 : (2 : Nat) ^ 24 = 16777216 := by norm_num
  have h16 : (2 : Nat) ^ 16 = 65536 := by norm_num
  have h8 : (2 : Nat) ^ 8 = 256 := by norm_num
  rw [h24, h16, h8]
  omega

lemma rch_pack (w r g b : Nat) (hw : w < 256) (hr : r < 256) (hg : g < 256)
    (hb : b < 256) : rch (pack w r g b) = r := by
  unfold rch pack
  have h24 : (2 : Nat) ^ 24 = 16777216 := by norm_num
  have h16 : (2 : Nat) ^ 16 = 65536 := by norm_num
  have h8 : (2 : Nat) ^ 8 = 256 := by norm_num
  rw [h24, h16, h8]
  omega

lemma gch_pack (w r g b : Nat) (hw : w < 256) (hr : r < 256) (hg : g < 256)
    (hb : b < 256) : gch (pack w r g b) = g := by
  unfold gch pack
  have h24 : (2 : Nat) ^ 24 = 16777216 := by norm_num
  have h16 : (2 : Nat) ^ 16 = 65536 := by norm_num
  have h8 : (2 : Nat) ^ 8 = 256 := by norm_num
  rw [h24, h16, h8]
  omega

lemma bch_pack (w r g b : Nat) (hw : w < 256) (hr : r < 256) (hg : g < 256)
    (hb : b < 256) : bch (pack w r g b) = b := by
  unfold bch pack
  have h24 : (2 : Nat) ^ 24 = 16777216 := by norm_num
  have h16 : (2 : Nat) ^ 16 = 65536 := by norm_num
  have h8 : (2 : Nat) ^ 8 = 256 := by norm_num
  rw [h24, h16, h8]
  omega

lemma pack_decompose (c : Nat) (h : c < 2 ^ 32) :
    pack (wch c) (rch c) (gch c) (bch c) = c := by
  unfold pack wch rch gch bch
  have h24 : (2 : Nat) ^ 24 = 16777216 := by norm_num
  have h16 : (2 : Nat) ^ 16 = 65536 := by norm_num
  have h8 : (2 : Nat) ^ 8 = 256 := by norm_num
  have h32 : (2 : Nat) ^ 32 = 4294967296 := by norm_num
  rw [h24, h16, h8]
  rw [h32] at h
  omega

/-! ### Basic facts about truncation and brightness -/

lemma truncF_natCast (n : Nat) : truncF (n : ℚ) = n := by
  unfold truncF
  rw [Int.floor_natCast]
  exact Int.toNat_natCast n

lemma truncF_le_of_le_natCast (q : ℚ) (n : Nat) (h : q ≤ (n : ℚ)) :
    truncF q ≤ n := by
  unfold truncF
  have h1 : ⌊q⌋ ≤ ⌊(n : ℚ)⌋ := Int.floor_le_floor h
  rw [Int.floor_natCast] at h1
  exact Int.toNat_le.mpr h1

lemma truncF_cast_le (q : ℚ) (h : 0 ≤ q) : (truncF q : ℚ) ≤ q := by
  unfold truncF
  have h1 : (0 : ℤ) ≤ ⌊q⌋ := Int.floor_nonneg.mpr h
  have h2 : ((⌊q⌋.toNat : ℤ) : ℚ) = ((⌊q⌋ : ℤ) : ℚ) := by
    rw [Int.toNat_of_nonneg h1]
  push_cast at h2 ⊢
  rw [h2]
  exact_mod_cast Int.floor_le q

lemma get_brightness_nonneg (c : Nat) : 0 ≤ get_brightness c := by
  unfold get_brightness
  positivity

lemma get_brightness_le_255 (c : Nat) : get_brightness c ≤ 255 := by
  unfold get_brightness
  rw [div_le_iff₀ (by norm_num : (0 : ℚ) < 12)]
  have hw : wch c ≤ 255 := Nat.lt_succ_iff.mp (wch_lt c)
  have hr : rch c ≤ 255 := Nat.lt_succ_iff.mp (rch_lt c)
  have hg : gch c ≤ 255 := Nat.lt_succ_iff.mp (gch_lt c)
  have hb : bch c ≤ 255 := Nat.lt_succ_iff.mp (bch_lt c)
  have : (wch c * 5 + rch c * 2 + gch c * 3 + bch c * 2 : Nat) ≤ 3060 := by omega
  calc ((wch c * 5 + rch c * 2 + gch c * 3 + bch c * 2 : Nat) : ℚ)
      ≤ (3060 : ℚ) := by exact_mod_cast this
    _ = 255 * 12 := by norm_num

/-- The limiter returns its argument whenever the reference is at least as
bright (the `else` branch at lightctl.c:69-71). -/
lemma limit_brightness_eq_self (c r : Nat)
    (h : get_brightness c ≤ get_brightness r) : limit_brightness c r = c := by
  simp only [limit_brightness]
  rw [if_neg (not_lt.mpr h)]

/-- Per-channel scaling in the limiter never exceeds the original channel
value, because the ratio `get_brightness r / get_brightness c` is at most 1
in the scaling branch. -/
lemma limit_channel_le (c r : Nat) (h : get_brightness r < get_brightness c)
    (x : Nat) :
    truncF ((x : ℚ) * get_brightness r / get_brightness c) ≤ x := by
  have hb : 0 < get_brightness c := lt_of_le_of_lt (get_brightness_nonneg r) h
  apply truncF_le_of_le_natCast
  rw [mul_div_assoc]
  have hratio : get_brightness r / get_brightness c ≤ 1 := by
    rw [div_le_one hb]; exact h.le
  calc (x : ℚ) * (get_brightness r / get_brightness c)
      ≤ (x : ℚ) * 1 := by
        apply mul_le_mul_of_nonneg_left hratio (by positivity)
    _ = (x : ℚ) := mul_one _

/-- Blending a color with itself returns the color, for any alpha: the
channel value `(1-a)*x + a*x` collapses to `x` exactly. -/
lemma blend_colors_self (c : Nat) (h : c < 2 ^ 32) (alpha : ℚ) :
    blend_colors c c alpha = c := by
  simp only [blend_colors]
  have hx : ∀ x : ℚ, (1 - alpha) * x + alpha * x = x := by intro x; ring
  rw [hx, hx, hx, hx, truncF_natCast, truncF_natCast, truncF_natCast,
      truncF_natCast]
  exact pack_decompose c h

lemma blend_colors_zero (c1 c2 : Nat) (h : c1 < 2 ^ 32) :
    blend_colors c1 c2 0 = c1 := by
  simp only [blend_colors]
  have hx : ∀ x y : ℚ, (1 - 0) * x + 0 * y = x := by intro x y; ring
  rw [hx, hx, hx, hx, truncF_natCast, truncF_natCast, truncF_natCast,
      truncF_natCast]
  exact pack_decompose c1 h

lemma blend_colors_one (c1 c2 : Nat) (h : c2 < 2 ^ 32) :
    blend_colors c1 c2 1 = c2 := by
  simp only [blend_colors]
  have hx : ∀ x y : ℚ, (1 - 1) * x + 1 * y = y := by intro x y; ring
  rw [hx, hx, hx, hx, truncF_natCast, truncF_natCast, truncF_natCast,
      truncF_natCast]
  exact pack_decompose c2 h

/-- C1: evaluating `get_brightness` at the extremes.  `get_brightness 0 = 0`
as claimed, but `get_brightness 0xFFFFFFFF = 255`, not 1: the weighted sum is
divided by the weight total 12 only, so the range is [0,255], contradicting
the claim (and the comment at lightctl.c:46) that the result lies in [0,1]
with value 1 at 0xFFFFFFFF. -/
theorem c1_brightness_eval :
    get_brightness 0 = 0 ∧ get_brightness 0xFFFFFFFF = 255 ∧
      get_brightness 0xFFFFFFFF ≠ 1 := by
  refine ⟨?_, ?_, ?_⟩ <;> norm_num [get_brightness, wch, rch, gch, bch]

/-- C5: whenever the reference is at least as bright as the candidate the
limiter returns the candidate unchanged; in particular when the candidate
has brightness 0 the `else` branch is taken and the division by
`brightness(C)` at lightctl.c:63-66 is never evaluated. -/
theorem c5_limit_noop (c r : Nat) :
    (get_brightness c ≤ get_brightness r → limit_brightness c r = c)
    ∧ (get_brightness c = 0 → limit_brightness c r = c) := by
  constructor
  · exact limit_brightness_eq_self c r
  · intro h
    apply limit_brightness_eq_self
    rw [h]
    exact get_brightness_nonneg r

theorem c5_limit_noop_witness :
    limit_brightness 0x00000001 0x00000002 = 0x00000001 :=
  (c5_limit_noop 0x00000001 0x00000002).1
    (by norm_num [get_brightness, wch, rch, gch, bch])

/-- Brightness of a packed color with in-range channels, in terms of the
channels. -/
lemma get_brightness_pack (w r g b : Nat) (hw : w < 256) (hr : r < 256)
    (hg : g < 256) (hb : b < 256) :
    get_brightness (pack w r g b) = ((w * 5 + r * 2 + g * 3 + b * 2 : Nat) : ℚ) / 12 := by
  unfold get_brightness
  rw [wch_pack _ _ _ _ hw hr hg hb, rch_pack _ _ _ _ hw hr hg hb,
      gch_pack _ _ _ _ hw hr hg hb, bch_pack _ _ _ _ hw hr hg hb]

/-- C6: in the scaling branch every channel is scaled by the brightness ratio
and truncated to an integer, exactly as at lightctl.c:63-68, and the
resulting color's brightness does not exceed the reference's (the tolerance
is not even needed: truncation can only lower the weighted sum). -/
theorem c6_limit_scales (c r : Nat) (h1 : get_brightness r < get_brightness c)
    (h2 : 0 < get_brightness c) :
    limit_brightness c r =
      pack (truncF ((wch c : ℚ) * get_brightness r / get_brightness c))
           (truncF ((rch c : ℚ) * get_brightness r / get_brightness c))
           (truncF ((gch c : ℚ) * get_brightness r / get_brightness c))
           (truncF ((bch c : ℚ) * get_brightness r / get_brightness c))
    ∧ get_brightness (limit_brightness c r) ≤ get_brightness r := by
  have hform : limit_brightness c r =
      pack (truncF ((wch c : ℚ) * get_brightness r / get_brightness c))
           (truncF ((rch c : ℚ) * get_brightness r / get_brightness c))
           (truncF ((gch c : ℚ) * get_brightness r / get_brightness c))
           (truncF ((bch c : ℚ) * get_brightness r / get_brightness c)) := by
    simp only [limit_brightness]
    rw [if_pos h1]
  refine ⟨hform, ?_⟩
  rw [hform]
  have hR0 : 0 ≤ get_brightness r := get_brightness_nonneg r
  have hnn : ∀ x : Nat, 0 ≤ (x : ℚ) * get_brightness r / get_brightness c :=
    fun x => div_nonneg (mul_nonneg (by positivity) hR0) h2.le
  have hwle := limit_channel_le c r h1 (wch c)
  have hrle := limit_channel_le c r h1 (rch c)
  have hgle := limit_channel_le c r h1 (gch c)
  have hble := limit_channel_le c r h1 (bch c)
  have hwlt := lt_of_le_of_lt hwle (wch_lt c)
  have hrlt := lt_of_le_of_lt hrle (rch_lt c)
  have hglt := lt_of_le_of_lt hgle (gch_lt c)
  have hblt := lt_of_le_of_lt hble (bch_lt c)
  rw [get_brightness_pack _ _ _ _ hwlt hrlt hglt hblt]
  rw [div_le_iff₀ (by norm_num : (0 : ℚ) < 12)]
  have l1 := truncF_cast_le _ (hnn (wch c))
  have l2 := truncF_cast_le _ (hnn (rch c))
  have l3 := truncF_cast_le _ (hnn (gch c))
  have l4 := truncF_cast_le _ (hnn (bch c))
  have hN : (wch c : ℚ) * 5 + (rch c : ℚ) * 2 + (gch c : ℚ) * 3
      + (bch c : ℚ) * 2 = 12 * get_brightness c := by
    unfold get_brightness
    push_cast
    ring
  have heq : ((wch c : ℚ) * get_brightness r / get_brightness c) * 5
      + ((rch c : ℚ) * get_brightness r / get_brightness c) * 2
      + ((gch c : ℚ) * get_brightness r / get_brightness c) * 3
      + ((bch c : ℚ) * get_brightness r / get_brightness c) * 2
      = 12 * get_brightness r := by
    field_simp
    linear_combination get_brightness r * hN
  push_cast
  linarith [l1, l2, l3, l4]

theorem c6_limit_scales_witness :
    limit_brightness 0x00000002 0x00000001 =
      pack (truncF ((wch 0x00000002 : ℚ) * get_brightness 0x00000001 / get_brightness 0x00000002))
           (truncF ((rch 0x00000002 : ℚ) * get_brightness 0x00000001 / get_brightness 0x00000002))
           (truncF ((gch 0x00000002 : ℚ) * get_brightness 0x00000001 / get_brightness 0x00000002))
           (truncF ((bch 0x00000002 : ℚ) * get_brightness 0x00000001 / get_brightness 0x00000002))
    ∧ get_brightness (limit_brightness 0x00000002 0x00000001) ≤
        get_brightness 0x00000001 :=
  c6_limit_scales 0x00000002 0x00000001
    (by norm_num [get_brightness, wch, rch, gch, bch])
    (by norm_num [get_brightness, wch, rch, gch, bch])

/-- C7: `load_leds` always yields exactly `led_count` colors; an absent
location gives all zeros, short data is zero-padded, excess data is
ignored. -/
theorem c7_load_leds_total (file : Option (List Nat)) (led_count : Nat)
    (d : List Nat) :
    (load_leds file led_count).length = led_count
    ∧ load_leds none led_count = List.replicate led_count 0
    ∧ (d.length ≤ led_count →
        load_leds (some d) led_count = d ++ List.replicate (led_count - d.length) 0)
    ∧ (led_count ≤ d.length → load_leds (some d) led_count = d.take led_count) := by
  refine ⟨?_, rfl, ?_, ?_⟩
  · cases file with
    | none => simp [load_leds]
    | some data =>
      simp only [load_leds, List.length_append, List.length_take,
        List.length_replicate]
      omega
  · intro h
    simp only [load_leds]
    rw [List.take_of_length_le h]
  · intro h
    simp only [load_leds]
    rw [Nat.sub_eq_zero_of_le h, List.replicate_zero, List.append_nil]

theorem c7_load_leds_total_witness :
    (load_leds (some [7]) 3).length = 3
    ∧ load_leds none 3 = List.replicate 3 0
    ∧ load_leds (some [7]) 3 = [7] ++ List.replicate (3 - ([7] : List Nat).length) 0
    ∧ load_leds (some [7, 8, 9]) 2 = [7, 8, 9].take 2 :=
  ⟨(c7_load_leds_total (some [7]) 3 [7]).1,
   (c7_load_leds_total none 3 []).2.1,
   (c7_load_leds_total (some [7]) 3 [7]).2.2.1 (by simp),
   (c7_load_leds_total (some [7, 8, 9]) 2 [7, 8, 9]).2.2.2 (by simp)⟩

/-- C8: blending at alpha 0 returns the first color and at alpha 1 the
second, in fact exactly (well within the claimed tolerance of 1 per
channel): the interpolated channel value is the original integer and
truncation leaves it unchanged. -/
theorem c8_blend_endpoints (c1 c2 : Nat) (h1 : c1 < 2 ^ 32) (h2 : c2 < 2 ^ 32) :
    blend_colors c1 c2 0 = c1 ∧ blend_colors c1 c2 1 = c2 :=
  ⟨blend_colors_zero c1 c2 h1, blend_colors_one c1 c2 h2⟩

theorem c8_blend_endpoints_witness :
    blend_colors 0x12345678 0x9ABCDEF0 0 = 0x12345678
    ∧ blend_colors 0x12345678 0x9ABCDEF0 1 = 0x9ABCDEF0 :=
  c8_blend_endpoints 0x12345678 0x9ABCDEF0 (by norm_num) (by norm_num)

/-- C10: the limiter never raises any channel: in the scaling branch each
channel is multiplied by a ratio at most 1 and truncated, otherwise the
color is returned unchanged. -/
theorem c10_limit_nonincreasing (c r : Nat) :
    wch (limit_brightness c r) ≤ wch c
    ∧ rch (limit_brightness c r) ≤ rch c
    ∧ gch (limit_brightness c r) ≤ gch c
    ∧ bch (limit_brightness c r) ≤ bch c := by
  by_cases h : get_brightness r < get_brightness c
  · have hwle := limit_channel_le c r h (wch c)
    have hrle := limit_channel_le c r h (rch c)
    have hgle := limit_channel_le c r h (gch c)
    have hble := limit_channel_le c r h (bch c)
    have hwlt := lt_of_le_of_lt hwle (wch_lt c)
    have hrlt := lt_of_le_of_lt hrle (rch_lt c)
    have hglt := lt_of_le_of_lt hgle (gch_lt c)
    have hblt := lt_of_le_of_lt hble (bch_lt c)
    simp only [limit_brightness]
    rw [if_pos h]
    rw [wch_pack _ _ _ _ hwlt hrlt hglt hblt, rch_pack _ _ _ _ hwlt hrlt hglt hblt,
        gch_pack _ _ _ _ hwlt hrlt hglt hblt, bch_pack _ _ _ _ hwlt hrlt hglt hblt]
    exact ⟨hwle, hrle, hgle, hble⟩
  · simp only [limit_brightness]
    rw [if_neg h]
    exact ⟨le_refl _, le_refl _, le_refl _, le_refl _⟩

/-! ### The fade loop: float specials, command line, main control flow

C `float` division by zero produces NaN (0/0) or ±Inf (x/0, x ≠ 0); the
progress computation at lightctl.c:249-251 relies on `!(progress < 1)`
being true for NaN and +Inf.  `FloatQ` models a float value that is either
one of these specials or an exact rational. -/

inductive FloatQ where
  | nan : FloatQ
  | posInf : FloatQ
  | negInf : FloatQ
  | val (q : ℚ) : FloatQ
deriving DecidableEq

/-- Float division `a / b` with the IEEE zero-divisor cases. -/
def fdiv (a b : ℚ) : FloatQ :=
  if b = 0 then
    if a = 0 then FloatQ.nan else if 0 < a then FloatQ.posInf else FloatQ.negInf
  else FloatQ.val (a / b)

/-- The clamp `if (!(progress < 1)) progress = 1` (lightctl.c:250-251).
`NaN < 1` and `+Inf < 1` are false, so both are clamped to 1;
`-Inf < 1` is true, so -Inf is left unchanged. -/
def clampProgress : FloatQ → FloatQ
  | FloatQ.val q => if q < 1 then FloatQ.val q else FloatQ.val 1
  | FloatQ.negInf => FloatQ.negInf
  | _ => FloatQ.val 1

/-- The numeric value handed to `blend_colors`; the special cases cannot
reach a blend call after `clampProgress` when the elapsed time is
nonnegative (monotonic clock). -/
def progressAlpha : FloatQ → ℚ
  | FloatQ.val q => q
  | _ => 0

/-- The loop-exit test `progress >= 1` (lightctl.c:268). -/
def progressGe1 : FloatQ → Bool
  | FloatQ.val q => decide (1 ≤ q)
  | FloatQ.posInf => true
  | _ => false

/-- `struct params` (lightctl.c:149-155); `prog_name` is used only for the
usage message and is omitted.  `color` is `int32_t` holding the `%x`
conversion, modelled by its 32-bit unsigned value. -/
structure Params where
  color : Nat
  color_specified : Bool
  duration : ℚ
  limit_brightness : Bool
deriving DecidableEq

/-- Value of a hexadecimal digit character, if any. -/
def hexDigitVal (c : Char) : Option Nat :=
  if '0' ≤ c ∧ c ≤ '9' then some (c.toNat - '0'.toNat)
  else if 'a' ≤ c ∧ c ≤ 'f' then some (c.toNat - 'a'.toNat + 10)
  else if 'A' ≤ c ∧ c ≤ 'F' then some (c.toNat - 'A'.toNat + 10)
  else none

/-- Models `sscanf(arg, "%x", &color)` (lightctl.c:181): leading whitespace
is skipped, then an optional sign (strtoul semantics), an optional 0x/0X
prefix, then at least one hex digit; trailing characters are ignored; the
stored 32-bit value wraps. -/
def parseHexArg (s : String) : Option Nat :=
  let cs := s.toList.dropWhile Char.isWhitespace
  let signSplit : Bool × List Char :=
    match cs with
    | '-' :: rest => (true, rest)
    | '+' :: rest => (false, rest)
    | _ => (false, cs)
  let cs1 := signSplit.2
  let cs2 : List Char :=
    match cs1 with
    | '0' :: 'x' :: d :: rest => if (hexDigitVal d).isSome then d :: rest else cs1
    | '0' :: 'X' :: d :: rest => if (hexDigitVal d).isSome then d :: rest else cs1
    | _ => cs1
  let ds := cs2.takeWhile (fun c => (hexDigitVal c).isSome)
  if ds.isEmpty then none
  else
    let v := ds.foldl (fun a c => (16 * a + (hexDigitVal c).getD 0) % 2 ^ 32) 0
    some (if signSplit.1 then (2 ^ 32 - v) % 2 ^ 32 else v)

/-- Models `sscanf(arg, "%f", &duration)` (lightctl.c:176) on the plain
decimal-literal subset (leading whitespace, optional sign, digits, optional
fraction); the exponent and inf/nan forms accepted by `%f` are not
exercised by any claim and are not modelled. -/
def parseFloatArg (s : String) : Option ℚ :=
  let cs := s.toList.dropWhile Char.isWhitespace
  let signSplit : Bool × List Char :=
    match cs with
    | '-' :: rest => (true, rest)
    | '+' :: rest => (false, rest)
    | _ => (false, cs)
  let cs1 := signSplit.2
  let intPart := cs1.takeWhile Char.isDigit
  let rest := cs1.dropWhile Char.isDigit
  let fracPart : List Char :=
    match rest with
    | '.' :: r => r.takeWhile Char.isDigit
    | _ => []
  if intPart.isEmpty ∧ fracPart.isEmpty then none
  else
    let iv : Nat := intPart.foldl (fun a c => 10 * a + (c.toNat - '0'.toNat)) 0
    let fv : Nat := fracPart.foldl (fun a c => 10 * a + (c.toNat - '0'.toNat)) 0
    let mag : ℚ := (iv : ℚ) + (fv : ℚ) / (10 : ℚ) ^ fracPart.length
    some (if signSplit.1 then -mag else mag)

/-- The argument loop of `parse_cmdline` (lightctl.c:166-190), over the
arguments after the program name.  `none` models the -1 error return. -/
def parse_step : List String → Params → Option Params
  | [], p => some p
  | arg :: rest, p =>
    if arg = "--help" ∨ arg = "-h" then none
    else if arg = "--not-brighter" then
      parse_step rest { p with limit_brightness := true }
    else if arg = "--time" ∨ arg = "-t" then
      match rest with
      | [] => none
      | targ :: rest2 =>
        match parseFloatArg targ with
        | none => none
        | some d => parse_step rest2 { p with duration := d }
    else if p.color_specified = false then
      match parseHexArg arg with
      | none => none
      | some c => parse_step rest { p with color := c, color_specified := true }
    else none

/-- `parse_cmdline` (lightctl.c:157-192): params are zero-initialized
(lightctl.c:158-164) and the arguments are folded over. -/
def parse_cmdline (args : List String) : Option Params :=
  parse_step args ⟨0, false, 0, false⟩

/-- Channel LED counts from the `ledstrip` configuration
(lightctl.c:30 and 38). -/
def channel0_count : Nat := 167

def channel1_count : Nat := 109

/-- Environment of one iteration of the `while (running)` loop: the
`clock_gettime` outcome, the `get_timespan` value, and the
`ws2811_render` return value.  The list of `IterEnv`s models the
iterations for which `running` is still set; exhausting the list models the
cooperative cancellation flag going to 0. -/
structure IterEnv where
  clockOk : Bool
  elapsed : ℚ
  renderRet : Int
deriving DecidableEq

/-- Externally visible effects of the loop body: a hardware render of both
frame buffers, and the two `store_leds` writes (lightctl.c:260-266). -/
inductive Effect where
  | render (frame0 frame1 : List Nat) : Effect
  | store0 (data : List Nat) : Effect
  | store1 (data : List Nat) : Effect
deriving DecidableEq

/-- The `while (running)` loop (lightctl.c:243-273).  `ret` enters holding
the `ws2811_init` return value; a successful render overwrites it with
`WS2811_SUCCESS` (0).  A clock failure or render failure breaks out; the
exit code of the process is the first component, the recorded effect trace
the second. -/
def runLoop (duration : ℚ) (start0 start1 end0 end1 : List Nat) :
    Int → List IterEnv → Int × List Effect
  | ret, [] => (ret, [])
  | ret, e :: rest =>
    if e.clockOk = false then (ret, [])
    else
      let p := clampProgress (fdiv e.elapsed duration)
      let f0 := List.zipWith (fun s t => blend_colors s t (progressAlpha p)) start0 end0
      let f1 := List.zipWith (fun s t => blend_colors s t (progressAlpha p)) start1 end1
      if e.renderRet = 0 then
        if progressGe1 p then
          (0, [Effect.render f0 f1, Effect.store0 f0, Effect.store1 f1])
        else
          let next := runLoop duration start0 start1 end0 end1 e.renderRet rest
          (next.1, Effect.render f0 f1 :: Effect.store0 f0 :: Effect.store1 f1 :: next.2)
      else (e.renderRet, [Effect.render f0 f1])

/-- `main` (lightctl.c:195-279).  External nondeterminism is passed in:
the `setuid` and first `clock_gettime` outcomes, the contents of the two
state files, the `ws2811_init` return value, and the per-iteration
environments.  Returns the process exit code and the effect trace. -/
def mainRun (args : List String) (setuidOk clock0Ok : Bool)
    (file0 file1 : Option (List Nat)) (initRet : Int)
    (iters : List IterEnv) : Int × List Effect :=
  match parse_cmdline args with
  | none => (-1, [])
  | some params =>
    if setuidOk = false then (-1, [])
    else
      let start0 := load_leds file0 channel0_count
      let start1 := load_leds file1 channel1_count
      let end0 := start0.map (fun s =>
        if params.limit_brightness then limit_brightness params.color s else params.color)
      let end1 := start1.map (fun s =>
        if params.limit_brightness then limit_brightness params.color s else params.color)
      if clock0Ok = false then (-1, [])
      else if initRet = 0 then
        runLoop params.duration start0 start1 end0 end1 initRet iters
      else (initRet, [])

/-- Effect check used for the fixed-point run: every rendered frame and
every stored state equals the corresponding start state. -/
def effOkay (s0 s1 : List Nat) : Effect → Bool
  | Effect.render f0 f1 => decide (f0 = s0) && decide (f1 = s1)
  | Effect.store0 d => decide (d = s0)
  | Effect.store1 d => decide (d = s1)

/-- C4: with a nonnegative elapsed time (monotonic clock), whenever the
duration is 0, or the float quotient is NaN or +Inf, or the quotient is at
least 1, the clamp at lightctl.c:250-251 sets progress to exactly 1, and the
frame rendered with that progress is the frame blended with alpha 1. -/
theorem c4_progress_clamp (elapsed duration : ℚ) (start end_ : List Nat)
    (h0 : 0 ≤ elapsed)
    (h : duration = 0 ∨ fdiv elapsed duration = FloatQ.nan
        ∨ fdiv elapsed duration = FloatQ.posInf
        ∨ (duration ≠ 0 ∧ 1 ≤ elapsed / duration)) :
    clampProgress (fdiv elapsed duration) = FloatQ.val 1
    ∧ List.zipWith
        (fun s t => blend_colors s t (progressAlpha (clampProgress (fdiv elapsed duration))))
        start end_
      = List.zipWith (fun s t => blend_colors s t 1) start end_ := by
  have hc : clampProgress (fdiv elapsed duration) = FloatQ.val 1 := by
    rcases h with hd | hn | hp | ⟨hd, hq⟩
    · unfold fdiv
      rw [if_pos hd]
      by_cases he : elapsed = 0
      · rw [if_pos he]; rfl
      · rw [if_neg he, if_pos (lt_of_le_of_ne h0 (Ne.symm he))]; rfl
    · rw [hn]; rfl
    · rw [hp]; rfl
    · unfold fdiv
      rw [if_neg hd]
      simp only [clampProgress]
      rw [if_neg (not_lt.mpr hq)]
  refine ⟨hc, ?_⟩
  rw [hc]
  rfl

theorem c4_progress_clamp_witness :
    clampProgress (fdiv 3 0) = FloatQ.val 1
    ∧ List.zipWith (fun s t => blend_colors s t (progressAlpha (clampProgress (fdiv 3 0)))) [5] [9]
      = List.zipWith (fun s t => blend_colors s t 1) [5] [9] :=
  c4_progress_clamp 3 0 [5] [9] (by norm_num) (Or.inl rfl)

/-- The loop exit code is 0 unless some iteration's render failed, in which
case it is that iteration's driver status: a clock failure inside the loop
breaks out with the previous (successful) status. -/
lemma runLoop_exit (duration : ℚ) (s0 s1 e0 e1 : List Nat) (iters : List IterEnv) :
    (runLoop duration s0 s1 e0 e1 0 iters).1 = 0
    ∨ ∃ e ∈ iters, e.renderRet ≠ 0 ∧
        (runLoop duration s0 s1 e0 e1 0 iters).1 = e.renderRet := by
  induction iters with
  | nil => left; rfl
  | cons e rest ih =>
    simp only [runLoop]
    by_cases hc : e.clockOk = false
    · rw [if_pos hc]; left; rfl
    · rw [if_neg hc]
      by_cases hr : e.renderRet = 0
      · rw [if_pos hr]
        by_cases hp1 : progressGe1 (clampProgress (fdiv e.elapsed duration)) = true
        · rw [if_pos hp1]; left; rfl
        · rw [if_neg hp1, hr]
          rcases ih with h1 | ⟨x, hx, hxne, hxeq⟩
          · left; exact h1
          · right; exact ⟨x, List.mem_cons_of_mem e hx, hxne, hxeq⟩
      · rw [if_neg hr]
        right
        exact ⟨e, List.mem_cons_self e rest, hr, rfl⟩

/-- C2 (amended): the exit code is -1 on a usage error, a setuid failure or
a failure of the first clock read; it is the driver status when
`ws2811_init` fails; otherwise it is 0 unless some render failed, in which
case it is that render's driver status.  A clock failure inside the loop
does NOT force a nonzero exit: it only breaks the loop. -/
theorem c2_exit_codes (args : List String) (setuidOk clock0Ok : Bool)
    (file0 file1 : Option (List Nat)) (initRet : Int) (iters : List IterEnv) :
    (parse_cmdline args = none →
      (mainRun args setuidOk clock0Ok file0 file1 initRet iters).1 = -1)
    ∧ (setuidOk = false →
      (mainRun args setuidOk clock0Ok file0 file1 initRet iters).1 = -1)
    ∧ (clock0Ok = false →
      (mainRun args setuidOk clock0Ok file0 file1 initRet iters).1 = -1)
    ∧ (parse_cmdline args ≠ none → setuidOk = true → clock0Ok = true → initRet ≠ 0 →
      (mainRun args setuidOk clock0Ok file0 file1 initRet iters).1 = initRet)
    ∧ (parse_cmdline args ≠ none → setuidOk = true → clock0Ok = true → initRet = 0 →
      ((mainRun args setuidOk clock0Ok file0 file1 initRet iters).1 = 0
        ∨ ∃ e ∈ iters, e.renderRet ≠ 0 ∧
            (mainRun args setuidOk clock0Ok file0 file1 initRet iters).1 = e.renderRet)) := by
  cases hp : parse_cmdline args with
  | none =>
    refine ⟨fun _ => ?_, fun _ => ?_, fun _ => ?_,
      fun hne => absurd rfl hne, fun hne => absurd rfl hne⟩
    all_goals simp [mainRun, hp]
  | some prm =>
    refine ⟨fun h => ?_, fun h => ?_, fun h => ?_,
      fun _ hsu hck hir => ?_, fun _ hsu hck hir => ?_⟩
    · exact absurd h (by simp)
    · simp [mainRun, hp, h]
    · by_cases hs : setuidOk = false
      · simp [mainRun, hp, hs]
      · simp [mainRun, hp, hs, h]
    · simp [mainRun, hp, hsu, hck, hir]
    · simp only [mainRun, hp, hsu, hck, hir]
      simp only [Bool.true_eq_false, if_false, if_true, ite_false, ite_true]
      exact runLoop_exit prm.duration _ _ _ _ iters

/-- C2 counterexample: a run in which the command line, setuid, the initial
clock read and the driver init all succeed, but the clock read of the first
loop iteration fails, exits with code 0 — not nonzero as claimed. -/
theorem c2_clock_failure_exit_zero :
    (mainRun ["a"] true true none none 0 [⟨false, 0, 0⟩]).1 = 0 := by
  decide

theorem c2_exit_codes_witness :
    (mainRun ["ff"] true true none none 5 []).1 = 5 :=
  (c2_exit_codes ["ff"] true true none none 5 []).2.2.2.1
    (by decide) rfl rfl (by decide)

/-- C3 counterexample: invoking with no color argument at all is NOT
rejected: parsing succeeds with `color_specified = false` and color 0, and
a run with an otherwise healthy environment proceeds and exits 0. -/
theorem c3_missing_color_accepted :
    parse_cmdline [] = some ⟨0, false, 0, false⟩
    ∧ (mainRun [] true true none none 0 []).1 = 0 := by
  exact ⟨rfl, rfl⟩

/-- C3 (amended): a missing color argument is accepted (color defaults to 0
with `color_specified` false); an argument that is not a recognized flag
and not parseable as hexadecimal is rejected, as is any positional argument
after the color has been set; a parse error makes the process exit -1
having performed no render and no store. -/
theorem c3_cmdline_amended (s : String) (rest : List String) (p : Params)
    (args : List String) (setuidOk clock0Ok : Bool)
    (file0 file1 : Option (List Nat)) (initRet : Int) (iters : List IterEnv) :
    parse_cmdline [] = some ⟨0, false, 0, false⟩
    ∧ (s ≠ "--help" → s ≠ "-h" → s ≠ "--not-brighter" → s ≠ "--time" → s ≠ "-t" →
        parseHexArg s = none → parse_step (s :: rest) p = none)
    ∧ (s ≠ "--help" → s ≠ "-h" → s ≠ "--not-brighter" → s ≠ "--time" → s ≠ "-t" →
        p.color_specified = true → parse_step (s :: rest) p = none)
    ∧ (parse_cmdline args = none →
        mainRun args setuidOk clock0Ok file0 file1 initRet iters = (-1, [])) := by
  refine ⟨rfl, ?_, ?_, ?_⟩
  · intro h1 h2 h3 h4 h5 hhex
    unfold parse_step
    rw [if_neg (by simp [h1, h2]), if_neg h3, if_neg (by simp [h4, h5])]
    by_cases hcs : p.color_specified = false
    · rw [if_pos hcs, hhex]
    · rw [if_neg hcs]
  · intro h1 h2 h3 h4 h5 hcs
    unfold parse_step
    rw [if_neg (by simp [h1, h2]), if_neg h3, if_neg (by simp [h4, h5]),
        if_neg (by simp [hcs])]
  · intro h
    simp [mainRun, h]

theorem c3_cmdline_amended_witness :
    parse_step ["zz"] ⟨0, false, 0, false⟩ = none
    ∧ parse_step ["11"] ⟨0, true, 0, false⟩ = none
    ∧ mainRun ["--help"] true true none none 0 [] = (-1, []) :=
  ⟨(c3_cmdline_amended "zz" [] ⟨0, false, 0, false⟩ [] true true none none 0 []).2.1
      (by decide) (by decide) (by decide) (by decide) (by decide) (by decide),
   (c3_cmdline_amended "11" [] ⟨0, true, 0, false⟩ [] true true none none 0 []).2.2.1
      (by decide) (by decide) (by decide) (by decide) (by decide) rfl,
   (c3_cmdline_amended "x" [] ⟨0, false, 0, false⟩ ["--help"] true true none none 0 []).2.2.2
      (by decide)⟩

/-! ### Binary32 evaluation lemmas and the knife-edge blend -/

lemma pow2_pos (e : ℤ) : 0 < pow2 e := zpow_pos (by norm_num) e

lemma pow2_mono {e1 e2 : ℤ} (h : e1 ≤ e2) : pow2 e1 ≤ pow2 e2 :=
  zpow_le_zpow_right₀ (by norm_num : (1 : ℚ) ≤ 2) h

lemma findExpAux_at (q : ℚ) (e : ℤ) (h1 : pow2 e ≤ q) (h2 : q < pow2 (e + 1))
    (fuel : Nat) : findExpAux q fuel e = e := by
  cases fuel with
  | zero => rfl
  | succ n =>
    unfold findExpAux
    rw [if_neg (not_lt.mpr h1), if_neg (not_le.mpr h2)]

lemma findExpAux_descend (q : ℚ) (e : ℤ) (h1 : pow2 e ≤ q) (h2 : q < pow2 (e + 1)) :
    ∀ (fuel : Nat) (e0 : ℤ), e ≤ e0 → (e0 - e).toNat ≤ fuel →
      findExpAux q fuel e0 = e := by
  intro fuel
  induction fuel with
  | zero =>
    intro e0 hle hfuel
    have he : e0 = e := by omega
    rw [he]
    rfl
  | succ n ih =>
    intro e0 hle hfuel
    rcases eq_or_lt_of_le hle with heq | hlt
    · rw [← heq]
      exact findExpAux_at q e h1 h2 (n + 1)
    · have hq : q < pow2 e0 := lt_of_lt_of_le h2 (pow2_mono (by omega))
      unfold findExpAux
      rw [if_pos hq]
      exact ih (e0 - 1) (by omega) (by omega)

lemma findExpAux_ascend (q : ℚ) (e : ℤ) (h1 : pow2 e ≤ q) (h2 : q < pow2 (e + 1)) :
    ∀ (fuel : Nat) (e0 : ℤ), e0 ≤ e → (e - e0).toNat ≤ fuel →
      findExpAux q fuel e0 = e := by
  intro fuel
  induction fuel with
  | zero =>
    intro e0 hle hfuel
    have he : e0 = e := by omega
    rw [he]
    rfl
  | succ n ih =>
    intro e0 hle hfuel
    rcases eq_or_lt_of_le hle with heq | hlt
    · rw [heq]
      exact findExpAux_at q e h1 h2 (n + 1)
    · have ha : ¬ q < pow2 e0 := not_lt.mpr (le_trans (pow2_mono (by omega)) h1)
      have hb : pow2 (e0 + 1) ≤ q := le_trans (pow2_mono (by omega)) h1
      unfold findExpAux
      rw [if_neg ha, if_pos hb]
      exact ih (e0 + 1) (by omega) (by omega)

lemma findExp_eq (q : ℚ) (e : ℤ) (hlo : -300 ≤ e) (hhi : e ≤ 300)
    (h1 : pow2 e ≤ q) (h2 : q < pow2 (e + 1)) : findExp q = e := by
  unfold findExp
  rcases le_total e 0 with h | h
  · exact findExpAux_descend q e h1 h2 300 0 h (by omega)
  · exact findExpAux_ascend q e h1 h2 300 0 h (by omega)

/-- Evaluating one binary32 rounding: for positive `q` with binary exponent
`e`, `fl32 q` is the round-to-nearest-even of the 24-bit significand. -/
lemma fl32_eval (q : ℚ) (e : ℤ) (hlo : -300 ≤ e) (hhi : e ≤ 300)
    (h1 : pow2 e ≤ q) (h2 : q < pow2 (e + 1)) :
    fl32 q = (rne (q / pow2 (e - 23)) : ℚ) * pow2 (e - 23) := by
  have hq : 0 < q := lt_of_lt_of_le (pow2_pos e) h1
  unfold fl32
  rw [if_neg (ne_of_gt hq), if_pos hq, findExp_eq q e hlo hhi h1 h2]

/-- C9 counterexample: at the representable binary32 progress value
`alpha = (2^23 + 1)/2^48` (slightly above 2^-25, reachable as
elapsed/duration with a duration of a few hundred thousand seconds),
blending the color 0x000000FF toward itself under the program's binary32
arithmetic yields 0x000000FE — the blue channel drops from 255 to 254
(`1 - alpha` rounds to `1 - 2^-24`, the product to `255 - 2^-16`, and the
final sum rounds back below 255, which the cast truncates to 254).  So a
frame rendered and stored mid-fade differs from the persisted start color
even though start and end are equal, refuting bit-exact state preservation
for every alpha.  The exact-rational blend returns 0x000000FF at the same
alpha, locating the divergence in rounding, not in the channel algebra. -/
theorem c9_float_truncation_drop :
    0 < (2 ^ 23 + 1 : ℚ) / 2 ^ 48 ∧ (2 ^ 23 + 1 : ℚ) / 2 ^ 48 < 1
    ∧ blend_colors32 0x000000FF 0x000000FF ((2 ^ 23 + 1 : ℚ) / 2 ^ 48) = 0x000000FE
    ∧ blend_colors 0x000000FF 0x000000FF ((2 ^ 23 + 1 : ℚ) / 2 ^ 48) = 0x000000FF := by
  refine ⟨by norm_num, by norm_num, ?_, ?_⟩
  · have s1 : fl32 (1 - (2 ^ 23 + 1 : ℚ) / 2 ^ 48) = 16777215 / 16777216 := by
      rw [fl32_eval _ (-1) (by norm_num) (by norm_num) (by norm_num [pow2])
        (by norm_num [pow2])]
      norm_num [rne, pow2]
    have hz : fl32 (fl32 (fl32 (1 - (2 ^ 23 + 1 : ℚ) / 2 ^ 48) * ((0 : Nat) : ℚ))
        + fl32 (((2 ^ 23 + 1 : ℚ) / 2 ^ 48) * ((0 : Nat) : ℚ))) = 0 := by
      simp [fl32]
    have s2 : fl32 ((16777215 / 16777216 : ℚ) * ((255 : Nat) : ℚ)) = 16711679 / 65536 := by
      rw [fl32_eval _ 7 (by norm_num) (by norm_num) (by norm_num [pow2])
        (by norm_num [pow2])]
      norm_num [rne, pow2]
    have s3 : fl32 (((2 ^ 23 + 1 : ℚ) / 2 ^ 48) * ((255 : Nat) : ℚ)) = 16711682 / 2199023255552 := by
      rw [fl32_eval _ (-18) (by norm_num) (by norm_num) (by norm_num [pow2])
        (by norm_num [pow2])]
      norm_num [rne, pow2]
    have s4 : fl32 ((16711679 / 65536 : ℚ) + 16711682 / 2199023255552) = 16711679 / 65536 := by
      rw [fl32_eval _ 7 (by norm_num) (by norm_num) (by norm_num [pow2])
        (by norm_num [pow2])]
      norm_num [rne, pow2]
    have hw : wch 0x000000FF = 0 := rfl
    have hr : rch 0x000000FF = 0 := rfl
    have hg : gch 0x000000FF = 0 := rfl
    have hbc : bch 0x000000FF = 255 := rfl
    unfold blend_colors32
    rw [hw, hr, hg, hbc, hz, s1, s2, s3, s4]
    norm_num [truncF, pack]
    rfl
  · have hw : wch 0x000000FF = 0 := rfl
    have hr : rch 0x000000FF = 0 := rfl
    have hg : gch 0x000000FF = 0 := rfl
    have hbc : bch 0x000000FF = 255 := rfl
    unfold blend_colors
    rw [hw, hr, hg, hbc]
    norm_num [truncF, pack]
    rfl

/-- Computing the end colors from an all-`color` start state yields the same
state, whether or not brightness limiting is on: limiting a color against
itself is a no-op. -/
lemma map_end_replicate (flag : Bool) (color : Nat) (n : Nat) :
    (List.replicate n color).map
      (fun s => if flag then limit_brightness color s else color)
    = List.replicate n color := by
  rw [List.map_replicate]
  cases flag
  · simp
  · simp [limit_brightness_eq_self color color (le_refl _)]

/-- Blending an all-`color` frame toward an all-`color` frame gives the same
frame, for every alpha. -/
lemma zipWith_blend_replicate (color : Nat) (h : color < 2 ^ 32) (a : ℚ) (n : Nat) :
    List.zipWith (fun s t => blend_colors s t a)
      (List.replicate n color) (List.replicate n color) = List.replicate n color := by
  induction n with
  | zero => rfl
  | succ k ih =>
    simp only [List.replicate_succ, List.zipWith_cons_cons]
    rw [blend_colors_self color h a, ih]

lemma runLoop_effects_fixed (color : Nat) (h : color < 2 ^ 32) (duration : ℚ)
    (n0 n1 : Nat) (ret : Int) (iters : List IterEnv) :
    ((runLoop duration (List.replicate n0 color) (List.replicate n1 color)
        (List.replicate n0 color) (List.replicate n1 color) ret iters).2).all
      (effOkay (List.replicate n0 color) (List.replicate n1 color)) = true := by
  induction iters generalizing ret with
  | nil => rfl
  | cons e rest ih =>
    simp only [runLoop]
    by_cases hc : e.clockOk = false
    · rw [if_pos hc]; rfl
    · rw [if_neg hc]
      rw [zipWith_blend_replicate color h _ n0, zipWith_blend_replicate color h _ n1]
      by_cases hr : e.renderRet = 0
      · rw [if_pos hr]
        by_cases hp1 : progressGe1 (clampProgress (fdiv e.elapsed duration)) = true
        · rw [if_pos hp1]
          simp [effOkay]
        · rw [if_neg hp1]
          simp [effOkay, ih e.renderRet]
      · rw [if_neg hr]
        simp [effOkay]

/-- C9 (amended): when every LED's persisted start color equals the
requested color, the end state equals the start state (with or without
`--not-brighter`), and with the per-channel interpolation computed exactly,
every rendered frame and every store equals the start state for every
progress value, any duration and any sequence of loop iterations.  This is
the exact-arithmetic part of the amended claim: under the program's
binary32 arithmetic the equality holds only up to the one-unit truncation
tolerance per channel, since a knife-edge progress value can lower a
channel by one unit for a frame (see the binary32 counterexample above). -/
theorem c9_fixed_point_run (color : Nat) (hcolor : color < 2 ^ 32) (flag : Bool)
    (duration : ℚ) (n0 n1 : Nat) (ret : Int) (iters : List IterEnv) :
    ((runLoop duration (List.replicate n0 color) (List.replicate n1 color)
        ((List.replicate n0 color).map (fun s =>
          if flag then limit_brightness color s else color))
        ((List.replicate n1 color).map (fun s =>
          if flag then limit_brightness color s else color))
        ret iters).2).all
      (effOkay (List.replicate n0 color) (List.replicate n1 color)) = true := by
  rw [map_end_replicate, map_end_replicate]
  exact runLoop_effects_fixed color hcolor duration n0 n1 ret iters

theorem c9_fixed_point_run_witness :
    ((runLoop 5 (List.replicate 1 0x01020304) (List.replicate 1 0x01020304)
        ((List.replicate 1 0x01020304).map (fun s =>
          if true then limit_brightness 0x01020304 s else 0x01020304))
        ((List.replicate 1 0x01020304).map (fun s =>
          if true then limit_brightness 0x01020304 s else 0x01020304))
        0 [⟨true, 0, 0⟩]).2).all
      (effOkay (List.replicate 1 0x01020304) (List.replicate 1 0x01020304)) = true :=
  c9_fixed_point_run 0x01020304 (by norm_num) true 5 1 1 0 [⟨true, 0, 0⟩]

end Lightctl
